import Mathlib

/-
Verification development for the heart-disease risk analyzer
(source: GUI.py, class HeartDiseasePredictor).

The repository is a Tkinter form around serialized artifacts.  The logic
embedded here is the validation / encoding / dispatch core:

  - get_field_definitions   (field schema, GUI.py lines 212-241)
  - validate_inputs         (GUI.py lines 277-295)
  - the data-gathering loop and prediction pipeline inside predict
                            (GUI.py lines 297-341)
  - load_models             (GUI.py lines 77-103)
  - load_scaler             (GUI.py lines 70-75) with show_error fatal exit
                            (GUI.py lines 358-362)

Opaque artifacts (the pickled scaler and SVM models) are embedded as
records of functions that may fail; a raised Python exception is an
Except.error carrying str(e).  Python float values are embedded as
rationals extended with the special values inf, -inf and nan.
-/

set_option autoImplicit false

namespace HeartGUI

/-- A Python float value as far as this program distinguishes them:
a finite value (embedded as a rational) or one of the special values
produced by float parsing. -/
inductive PyVal where
  | fin : ℚ → PyVal
  | inf : PyVal
  | ninf : PyVal
  | nan : PyVal
deriving DecidableEq

/-- Whitespace stripped by the Python str.strip method and by the float
builtin (ASCII subset: space, tab, newline, carriage return, vertical
tab, form feed). -/
def isPyWS (c : Char) : Bool :=
  c = ' ' || c = '\t' || c = '\n' || c = '\r' || c = Char.ofNat 11 || c = Char.ofNat 12

/-- Strip leading and trailing whitespace from a list of characters,
as Python str.strip does. -/
def stripChars (l : List Char) : List Char :=
  ((l.dropWhile isPyWS).reverse.dropWhile isPyWS).reverse

/-- The string form of str.strip, used by validate_inputs on numeric
fields before any other check. -/
def pyStrip (s : String) : String :=
  ⟨stripChars s.data⟩

/-- Numeric value of a decimal digit character. -/
def digitVal (c : Char) : Nat := c.toNat - 48

/-- True when no two underscores are adjacent in the list. -/
def noDoubleUnderscore : List Char → Bool
  | [] => true
  | '_' :: '_' :: _ => false
  | _ :: rest => noDoubleUnderscore rest

/-- A digit span (characters drawn from digits and underscores) is a
valid Python digit group: nonempty, starts and ends with a digit, and
underscores appear only singly between digits. -/
def digitsOk (l : List Char) : Bool :=
  match l with
  | [] => false
  | c :: _ =>
      c.isDigit &&
      (match l.getLast? with
       | some d => d.isDigit
       | none => false) &&
      noDoubleUnderscore l

/-- Value of a digit span, ignoring underscores. -/
def spanVal (l : List Char) : Nat :=
  l.foldl (fun acc c => if c.isDigit then acc * 10 + digitVal c else acc) 0

/-- Number of digits in a digit span (underscores excluded). -/
def spanLen (l : List Char) : Nat :=
  (l.filter (fun c => c.isDigit)).length

/-- Split off the longest leading span of digits and underscores. -/
def takeDigitSpan (l : List Char) : List Char × List Char :=
  (l.takeWhile (fun c => c.isDigit || c = '_'),
   l.dropWhile (fun c => c.isDigit || c = '_'))

/-- Parse the exponent part of a float literal: either nothing, or an
e / E followed by an optionally signed digit group consuming the rest
of the input. -/
def parseExp (l : List Char) : Option Int :=
  match l with
  | [] => some 0
  | c :: rest =>
      if c = 'e' || c = 'E' then
        let sr : Int × List Char :=
          match rest with
          | '+' :: r => (1, r)
          | '-' :: r => (-1, r)
          | r => (1, r)
        let sp := takeDigitSpan sr.2
        if sp.2 = [] && digitsOk sp.1 then some (sr.1 * (spanVal sp.1 : Int)) else none
      else none

/-- Value of a decimal literal with integer mantissa, a count of
fractional digits and a power-of-ten exponent: mant / 10 ^ frac * 10 ^ e,
assembled as one normalized rational. -/
def ratScale (mant : Int) (frac : Nat) (e : Int) : ℚ :=
  if 0 ≤ e then mkRat (mant * (10 : Int) ^ e.toNat) ((10 : Nat) ^ frac)
  else mkRat mant ((10 : Nat) ^ frac * (10 : Nat) ^ (-e).toNat)

/-- Parse an unsigned decimal float literal (digits, optional point,
optional exponent), mirroring the grammar accepted by the CPython float
builtin for finite decimal literals. -/
def parseNumberChars (l : List Char) : Option ℚ :=
  let s1 := takeDigitSpan l
  match s1.2 with
  | '.' :: r2 =>
      let s2 := takeDigitSpan r2
      if (s1.1.isEmpty || digitsOk s1.1) && (s2.1.isEmpty || digitsOk s2.1) &&
         !(s1.1.isEmpty && s2.1.isEmpty) then
        match parseExp s2.2 with
        | some e =>
            some (ratScale (spanVal s1.1 * (10 : Nat) ^ spanLen s2.1 + spanVal s2.1 : Nat)
              (spanLen s2.1) e)
        | none => none
      else none
  | r1 =>
      if digitsOk s1.1 then
        match parseExp r1 with
        | some e => some (ratScale (spanVal s1.1 : Nat) 0 e)
        | none => none
      else none

/-- Modelled from the CPython float builtin applied to a string: strip
whitespace, take an optional sign, then accept inf, infinity or nan
case-insensitively, or a finite decimal literal.  Returns none exactly
when float(s) raises ValueError. -/
def parseFloatChars (l0 : List Char) : Option PyVal :=
  let sl : Bool × List Char :=
    match l0 with
    | '+' :: r => (false, r)
    | '-' :: r => (true, r)
    | r => (false, r)
  let low := sl.2.map Char.toLower
  if low = "inf".data || low = "infinity".data then
    some (if sl.1 then PyVal.ninf else PyVal.inf)
  else if low = "nan".data then
    some PyVal.nan
  else
    match parseNumberChars sl.2 with
    | some q => some (PyVal.fin (if sl.1 then -q else q))
    | none => none

/-- The Python float builtin on a string (it strips surrounding
whitespace itself). -/
def pyFloat (s : String) : Option PyVal :=
  parseFloatChars (stripChars s.data)

/-- The kind of an input field: a free-text numeric entry (opts is None
in get_field_definitions) or a read-only combo box backed by a
label-to-code mapping (opts is a dict, embedded as an association list
in insertion order). -/
inductive FieldKind where
  | numeric : FieldKind
  | categorical : List (String × Int) → FieldKind
deriving DecidableEq

/-- One entry of get_field_definitions: display label, entries-dict key
and kind.  Tooltip text is presentation only and is not embedded. -/
structure FieldDescriptor where
  label : String
  key : String
  kind : FieldKind
deriving DecidableEq

/-- Association-list lookup with decidable string equality, embedding
Python dict indexing and key-membership tests. -/
def lookupKey {α : Type} (l : List (String × α)) (k : String) : Option α :=
  match l with
  | [] => none
  | (k', v) :: rest => if k' = k then some v else lookupKey rest k

/-- The field schema returned by get_field_definitions (GUI.py lines
212-241), in source order.  The entries dict of the GUI is built by
iterating this list, so dict iteration order in validate_inputs and
predict equals this order. -/
def field_definitions : List FieldDescriptor :=
  [⟨"Age (years)", "age", FieldKind.numeric⟩,
   ⟨"Sex", "sex", FieldKind.categorical [("Male", 1), ("Female", 0)]⟩,
   ⟨"Chest Pain Type", "chest pain type",
      FieldKind.categorical
        [("Typical angina", 1), ("Atypical angina", 2),
         ("Non-anginal pain", 3), ("Asymptomatic", 4)]⟩,
   ⟨"Resting BP (mm Hg)", "resting bp s", FieldKind.numeric⟩,
   ⟨"Cholesterol (mg/dl)", "cholesterol", FieldKind.numeric⟩,
   ⟨"Fasting Blood Sugar >120mg/dl", "fasting blood sugar",
      FieldKind.categorical [("Yes", 1), ("No", 0)]⟩,
   ⟨"Resting ECG", "resting ecg",
      FieldKind.categorical
        [("normal", 0), ("ST-T abnormality", 1),
         ("Left ventricular hypertrophy", 2)]⟩,
   ⟨"Max Heart Rate", "max heart rate", FieldKind.numeric⟩,
   ⟨"Exercise Angina", "exercise angina",
      FieldKind.categorical [("Yes", 1), ("No", 0)]⟩,
   ⟨"Oldpeak", "oldpeak", FieldKind.numeric⟩,
   ⟨"ST Slope", "ST slope",
      FieldKind.categorical
        [("upsloping", 1), ("flat", 2), ("downsloping", 3)]⟩]

/-- Reason component of a validation failure, matching the three
ValueError messages raised by validate_inputs. -/
inductive VReason where
  | empty
  | notNumeric
  | invalidSelection
deriving DecidableEq

/-- A validation failure: the offending field key and the reason. -/
structure ValidationError where
  field : String
  reason : VReason
deriving DecidableEq

/-- Validation of a single field against its raw widget string, as
performed by the loop body of validate_inputs: numeric fields are
stripped, checked nonempty, then checked float-parseable; categorical
fields are checked for key membership in their mapping. -/
def validateField (fd : FieldDescriptor) (s : String) : Option VReason :=
  match fd.kind with
  | FieldKind.numeric =>
      let val := pyStrip s
      if val = "" then some VReason.empty
      else if (pyFloat val).isNone then some VReason.notNumeric
      else none
  | FieldKind.categorical opts =>
      if (lookupKey opts s).isNone then some VReason.invalidSelection else none

/-- The loop of validate_inputs over the entries dict: the first field
that fails produces the ValueError that aborts the whole check. -/
def validateFieldsAux (l : List FieldDescriptor) (raw : String → String) :
    Option ValidationError :=
  match l with
  | [] => none
  | fd :: rest =>
      match validateField fd (raw fd.key) with
      | some r => some ⟨fd.key, r⟩
      | none => validateFieldsAux rest raw

/-- validate_inputs (GUI.py lines 277-295): none means the method
returned True; some e means a ValueError about field e.field was shown
and the method returned False. -/
def validate_inputs (raw : String → String) : Option ValidationError :=
  validateFieldsAux field_definitions raw

/-- Encoding of a single field inside the data-gathering loop of
predict: a dict lookup for categorical fields, float conversion for
numeric ones.  none models the raised exception the blanket handler of
predict would catch. -/
def encodeField (fd : FieldDescriptor) (s : String) : Option PyVal :=
  match fd.kind with
  | FieldKind.numeric => pyFloat s
  | FieldKind.categorical opts => (lookupKey opts s).map (fun (n : Int) => PyVal.fin (n : ℚ))

/-- The opaque pickled scaler: transform may raise (Except.error carries
str of the exception). -/
structure Scaler where
  transform : List PyVal → Except String (List PyVal)

/-- An opaque pickled classifier: the call model.predict(X)[0] may raise
or return any value. -/
structure Model where
  predict : List PyVal → Except String PyVal

/-- Observable calls the prediction pipeline makes: encoding of one
field, the scaler transform, and a model predict. -/
inductive CallEvent where
  | encodeField : String → CallEvent
  | scalerTransform : CallEvent
  | modelPredict : String → CallEvent
deriving DecidableEq

/-- Outcome of one predict invocation: a displayed risk label, an early
return after failed validation, or the Analysis Failed error box from
the blanket exception handler. -/
inductive PredictOutcome where
  | highRisk
  | lowRisk
  | validationFailed : ValidationError → PredictOutcome
  | analysisFailed : String → PredictOutcome
deriving DecidableEq

/-- The data-gathering loop of predict (GUI.py lines 304-310), with the
trace of fields successfully appended to the data list; none models an
exception escaping the loop. -/
def gatherAux (l : List FieldDescriptor) (raw : String → String) :
    List CallEvent × Option (List PyVal) :=
  match l with
  | [] => ([], some [])
  | fd :: rest =>
      match encodeField fd (raw fd.key) with
      | none => ([], none)
      | some v =>
          let r := gatherAux rest raw
          (CallEvent.encodeField fd.key :: r.1, r.2.map (fun d => v :: d))

/-- Gathering of the full feature vector over the schema. -/
def gatherData (raw : String → String) : List CallEvent × Option (List PyVal) :=
  gatherAux field_definitions raw

/-- The artifact part of predict, from scaler.transform to the label
(GUI.py lines 312-335), on an already-encoded feature vector: transform
runs first, then the registry lookup (a KeyError on an unknown tag,
whose str form is the quoted key), then model.predict, and the label is
high risk exactly when the returned value equals 1.  Every raised
exception is the Analysis Failed outcome of the blanket handler. -/
def predictCore (scaler : Scaler) (models : List (String × Model)) (tag : String)
    (data : List PyVal) : PredictOutcome × List CallEvent :=
  match scaler.transform data with
  | Except.error d => (PredictOutcome.analysisFailed d, [CallEvent.scalerTransform])
  | Except.ok xnew =>
      match lookupKey models tag with
      | none =>
          (PredictOutcome.analysisFailed ("'" ++ tag ++ "'"),
           [CallEvent.scalerTransform])
      | some m =>
          match m.predict xnew with
          | Except.error d =>
              (PredictOutcome.analysisFailed d,
               [CallEvent.scalerTransform, CallEvent.modelPredict tag])
          | Except.ok p =>
              ((if p = PyVal.fin 1 then PredictOutcome.highRisk
                else PredictOutcome.lowRisk),
               [CallEvent.scalerTransform, CallEvent.modelPredict tag])

/-- The predict method (GUI.py lines 297-341): validate_inputs gates
everything; on success the data list is gathered, normalized and
dispatched to the selected model. -/
def predict (raw : String → String) (scaler : Scaler)
    (models : List (String × Model)) (tag : String) :
    PredictOutcome × List CallEvent :=
  match validate_inputs raw with
  | some e => (PredictOutcome.validationFailed e, [])
  | none =>
      let g := gatherData raw
      match g.2 with
      | none => (PredictOutcome.analysisFailed "encoding error", g.1)
      | some data =>
          let r := predictCore scaler models tag data
          (r.1, g.1 ++ r.2)

/-- The model_paths dict of load_models (GUI.py lines 79-85), in
insertion order. -/
def model_paths : List (String × String) :=
  [("BFO", "Models/bfo_optimize_svm_model.pkl"),
   ("ACO", "Models/aco_optimize_svm_model.pkl"),
   ("DE", "Models/de_optimize_svm_model.pkl"),
   ("GA", "Models/ga_optimize_svm_model.pkl"),
   ("ABC", "Models/abc_optimize_svm_model.pkl")]

/-- Result of load_models: the loaded_models dict, the failed_models
list (one showwarning box per entry), and whether the fatal no-models
branch was taken (which terminates via show_error). -/
structure LoadModelsResult where
  models : List (String × Model)
  failed : List String
  fatalExit : Bool

/-- The loading loop of load_models over model_paths: the filesystem is
abstracted as a map from path to the artifact joblib.load would return,
none when it would raise. -/
def loadModelsAux (l : List (String × String)) (fs : String → Option Model) :
    List (String × Model) × List String :=
  match l with
  | [] => ([], [])
  | (k, p) :: rest =>
      let r := loadModelsAux rest fs
      match fs p with
      | some m => ((k, m) :: r.1, r.2)
      | none => (r.1, k :: r.2)

/-- load_models (GUI.py lines 77-103): each tag is attempted
independently; failures are collected as warnings; the fatal branch is
taken exactly when nothing loaded. -/
def load_models (fs : String → Option Model) : LoadModelsResult :=
  let r := loadModelsAux model_paths fs
  ⟨r.1, r.2, r.1.isEmpty⟩

/-- Result of load_scaler: either the scaler, or process termination
via show_error with fatal set (title and message of the error box). -/
inductive ScalerLoadResult where
  | ok : Scaler → ScalerLoadResult
  | fatalExit : String → String → ScalerLoadResult

/-- load_scaler (GUI.py lines 70-75): joblib.load of scaler.pkl is
abstracted as an optional artifact; any exception leads to show_error
with fatal set, which calls exit after the message box. -/
def load_scaler (artifact : Option Scaler) : ScalerLoadResult :=
  match artifact with
  | some s => ScalerLoadResult.ok s
  | none => ScalerLoadResult.fatalExit "Critical Error" "Failed to load feature scaler"

/-- The mutable state of the running GUI that the predict method reads
or writes: the entry widget values, the loaded artifacts, the selected
model tag, and the display fields (result text, result color, status
bar text). -/
structure AppState where
  raw : String → String
  scaler : Scaler
  models : List (String × Model)
  model_var : String
  result_var : String
  result_fg : String
  status : String

/-- The result text shown for a positive prediction. -/
def highRiskText (tag : String) : String :=
  "Model: " ++ tag ++ "\n" ++
  "High Risk of Heart Disease Detected\n" ++
  "This is a preliminary analysis suggesting increased risk.\n" ++
  "Please consult a cardiologist for comprehensive evaluation."

/-- The result text shown for a negative prediction. -/
def lowRiskText (tag : String) : String :=
  "Model: " ++ tag ++ "\n" ++
  "Low Risk of Heart Disease Detected\n" ++
  "No significant indicators found in this analysis.\n" ++
  "Regular checkups are still recommended for preventive care."

/-- The label outcome the predict method computes from the current
state. -/
def outcomeOf (s : AppState) : PredictOutcome :=
  (predict s.raw s.scaler s.models s.model_var).1

/-- One press of the Analyze Risk button as a state transformer: on a
label outcome the display fields are updated (GUI.py lines 319-338); a
validation failure or a caught exception only shows a message box and
leaves the state unchanged. -/
def predictAction (s : AppState) : AppState :=
  match outcomeOf s with
  | PredictOutcome.highRisk =>
      { s with
        result_var := highRiskText s.model_var,
        result_fg := "darkred",
        status := "Prediction completed successfully" }
  | PredictOutcome.lowRisk =>
      { s with
        result_var := lowRiskText s.model_var,
        result_fg := "darkgreen",
        status := "Prediction completed successfully" }
  | PredictOutcome.validationFailed _ => s
  | PredictOutcome.analysisFailed _ => s

/-- A concrete scaler used to instantiate theorems: the identity
transform. -/
def demoScaler : Scaler := ⟨fun v => Except.ok v⟩

/-- A concrete model that always returns 0. -/
def demoModel0 : Model := ⟨fun _ => Except.ok (PyVal.fin 0)⟩

/-- A concrete model that always returns 2, a value outside the label
set. -/
def demoModel2 : Model := ⟨fun _ => Except.ok (PyVal.fin 2)⟩

/-- The raw form contents of the end-to-end scenario: defaults for the
numeric fields and the first combo choice for each categorical one. -/
def demoRaw : String → String := fun k =>
  if k = "age" then "50"
  else if k = "sex" then "Male"
  else if k = "chest pain type" then "Typical angina"
  else if k = "resting bp s" then "120"
  else if k = "cholesterol" then "200"
  else if k = "fasting blood sugar" then "No"
  else if k = "resting ecg" then "normal"
  else if k = "max heart rate" then "150"
  else if k = "exercise angina" then "No"
  else if k = "oldpeak" then "1.0"
  else if k = "ST slope" then "upsloping"
  else ""

theorem dropWhile_self {α : Type} (p : α → Bool) :
    ∀ l : List α, (l.dropWhile p).dropWhile p = l.dropWhile p := by
  intro l
  induction l with
  | nil => simp
  | cons a t ih =>
      by_cases h : p a = true
      · simp [List.dropWhile_cons, h, ih]
      · simp [List.dropWhile_cons, h]

theorem head_dropWhile_not {α : Type} (p : α → Bool) :
    ∀ (l : List α) (a : α) (rest : List α), l.dropWhile p = a :: rest → p a = false := by
  intro l
  induction l with
  | nil => intro a rest h; simp at h
  | cons b t ih =>
      intro a rest h
      by_cases hb : p b = true
      · rw [List.dropWhile_cons] at h
        simp [hb] at h
        exact ih a rest h
      · rw [List.dropWhile_cons] at h
        simp [hb] at h
        rw [← h.1]
        simpa using hb

theorem strip_aux1 (p : Char → Bool) (l : List Char) :
    (((l.dropWhile p).reverse.dropWhile p).reverse).dropWhile p
      = ((l.dropWhile p).reverse.dropWhile p).reverse := by
  cases hwr : ((l.dropWhile p).reverse.dropWhile p).reverse with
  | nil => simp
  | cons a t =>
      have hsplit :
          (l.dropWhile p).reverse.takeWhile p ++ (l.dropWhile p).reverse.dropWhile p
            = (l.dropWhile p).reverse :=
        List.takeWhile_append_dropWhile p (l.dropWhile p).reverse
      have h2 :
          ((l.dropWhile p).reverse.dropWhile p).reverse
              ++ ((l.dropWhile p).reverse.takeWhile p).reverse
            = l.dropWhile p := by
        have h3 := congrArg List.reverse hsplit
        rw [List.reverse_append, List.reverse_reverse] at h3
        exact h3
      have hu2 :
          l.dropWhile p
            = a :: (t ++ ((l.dropWhile p).reverse.takeWhile p).reverse) := by
        have h4 := h2.symm
        rw [hwr] at h4
        simpa using h4
      have hpa : p a = false := head_dropWhile_not p l a _ hu2
      simp [List.dropWhile_cons, hpa]

theorem stripChars_idem (l : List Char) : stripChars (stripChars l) = stripChars l := by
  unfold stripChars
  rw [strip_aux1 isPyWS l, List.reverse_reverse,
    dropWhile_self isPyWS (l.dropWhile isPyWS).reverse]

theorem pyFloat_pyStrip (s : String) : pyFloat (pyStrip s) = pyFloat s := by
  show parseFloatChars (stripChars (stripChars s.data)) = parseFloatChars (stripChars s.data)
  rw [stripChars_idem]

theorem validateField_numeric_eq (fd : FieldDescriptor)
    (h : fd.kind = FieldKind.numeric) (s : String) :
    validateField fd s =
      (if pyStrip s = "" then some VReason.empty
       else if (pyFloat s).isNone then some VReason.notNumeric else none) := by
  simp [validateField, h, pyFloat_pyStrip]

theorem validateField_categorical_eq (fd : FieldDescriptor) (opts : List (String × Int))
    (h : fd.kind = FieldKind.categorical opts) (s : String) :
    validateField fd s =
      (if (lookupKey opts s).isNone then some VReason.invalidSelection else none) := by
  simp [validateField, h]

theorem pyFloat_empty : pyFloat "" = none := rfl

theorem encodeField_isSome_of_valid (fd : FieldDescriptor) (s : String)
    (h : validateField fd s = none) : (encodeField fd s).isSome := by
  cases hk : fd.kind with
  | numeric =>
      rw [validateField_numeric_eq fd hk s] at h
      unfold encodeField
      rw [hk]
      by_cases h1 : pyStrip s = ""
      · simp [h1] at h
      · by_cases h2 : (pyFloat s).isNone = true
        · simp [h1, h2] at h
        · cases hp : pyFloat s with
          | none => rw [hp] at h2; simp at h2
          | some v => simp
  | categorical opts =>
      rw [validateField_categorical_eq fd opts hk s] at h
      unfold encodeField
      rw [hk]
      cases hp : lookupKey opts s with
      | none => simp [hp] at h
      | some v => simp [hp]

theorem vfa_none_iff (raw : String → String) :
    ∀ l : List FieldDescriptor,
      validateFieldsAux l raw = none ↔ ∀ f ∈ l, validateField f (raw f.key) = none := by
  intro l
  induction l with
  | nil => simp [validateFieldsAux]
  | cons fd rest ih =>
      simp only [validateFieldsAux]
      cases hv : validateField fd (raw fd.key) with
      | some r => simp [hv]
      | none => simp [hv, ih]

theorem vfa_append (raw : String → String) (pre rest : List FieldDescriptor)
    (h : ∀ g ∈ pre, validateField g (raw g.key) = none) :
    validateFieldsAux (pre ++ rest) raw = validateFieldsAux rest raw := by
  induction pre with
  | nil => simp
  | cons g pre' ih =>
      have hg := h g (by simp)
      simp only [List.cons_append, validateFieldsAux, hg]
      exact ih (fun g' hg' => h g' (by simp [hg']))

theorem vfa_first (raw : String → String) :
    ∀ (l : List FieldDescriptor) (e : ValidationError),
      validateFieldsAux l raw = some e →
      ∃ pre fd post, l = pre ++ fd :: post ∧
        (∀ g ∈ pre, validateField g (raw g.key) = none) ∧
        validateField fd (raw fd.key) = some e.reason ∧ e.field = fd.key := by
  intro l
  induction l with
  | nil => intro e h; simp [validateFieldsAux] at h
  | cons fd rest ih =>
      intro e h
      cases hv : validateField fd (raw fd.key) with
      | some r =>
          simp only [validateFieldsAux, hv] at h
          have he : e = ⟨fd.key, r⟩ := by
            cases h
            rfl
          refine ⟨[], fd, rest, rfl, by simp, ?_, ?_⟩
          · rw [he, hv]
          · rw [he]
      | none =>
          simp only [validateFieldsAux, hv] at h
          obtain ⟨pre, fd', post, hl, hpre, hfd, hk⟩ := ih e h
          refine ⟨fd :: pre, fd', post, by rw [hl]; rfl, ?_, hfd, hk⟩
          intro g hg
          rcases List.mem_cons.mp hg with rfl | hg'
          · exact hv
          · exact hpre g hg'

theorem validate_inputs_fails (raw : String → String) (fd : FieldDescriptor)
    (hfd : fd ∈ field_definitions) (h : validateField fd (raw fd.key) ≠ none) :
    ∃ e, validate_inputs raw = some e := by
  cases hv : validate_inputs raw with
  | some e => exact ⟨e, rfl⟩
  | none => exact absurd ((vfa_none_iff raw field_definitions).mp hv fd hfd) h

theorem gatherAux_total (raw : String → String) :
    ∀ l : List FieldDescriptor,
      (∀ f ∈ l, (encodeField f (raw f.key)).isSome) →
      ∃ data, (gatherAux l raw).2 = some data ∧ data.length = l.length := by
  intro l
  induction l with
  | nil => exact fun _ => ⟨[], rfl, rfl⟩
  | cons fd rest ih =>
      intro h
      obtain ⟨v, hv⟩ := Option.isSome_iff_exists.mp (h fd (by simp))
      obtain ⟨data, hd, hlen⟩ := ih (fun f hf => h f (by simp [hf]))
      refine ⟨v :: data, ?_, by simp [hlen]⟩
      simp only [gatherAux, hv]
      simp [hd]

theorem lookupKey_eq_none {α : Type} (l : List (String × α)) (k : String)
    (h : ∀ v, (k, v) ∉ l) : lookupKey l k = none := by
  induction l with
  | nil => rfl
  | cons kv rest ih =>
      obtain ⟨k', v'⟩ := kv
      simp only [lookupKey]
      by_cases hk : k' = k
      · subst hk
        exact absurd (by simp) (h v')
      · simp only [hk, if_false]
        exact ih (fun v hv => h v (by simp [hv]))

theorem keys_nodup_functional {α : Type} :
    ∀ l : List (String × α), (l.map Prod.fst).Nodup →
      ∀ k p p', (k, p) ∈ l → (k, p') ∈ l → p = p' := by
  intro l
  induction l with
  | nil => intro _ k p p' h; simp at h
  | cons kv rest ih =>
      obtain ⟨k0, q⟩ := kv
      intro hnd k p p' hp hp'
      have hk0 : k0 ∉ rest.map Prod.fst := (List.nodup_cons.mp (by simpa using hnd)).1
      have hnd' : (rest.map Prod.fst).Nodup := (List.nodup_cons.mp (by simpa using hnd)).2
      rcases List.mem_cons.mp hp with he | hm
      · rcases List.mem_cons.mp hp' with he' | hm'
        · simp only [Prod.mk.injEq] at he he'
          rw [he.2, he'.2]
        · exfalso
          simp only [Prod.mk.injEq] at he
          apply hk0
          rw [← he.1]
          exact List.mem_map.mpr ⟨(k, p'), hm', rfl⟩
      · rcases List.mem_cons.mp hp' with he' | hm'
        · exfalso
          simp only [Prod.mk.injEq] at he'
          apply hk0
          rw [← he'.1]
          exact List.mem_map.mpr ⟨(k, p), hm, rfl⟩
        · exact ih hnd' k p p' hm hm'

theorem lma_length (fs : String → Option Model) :
    ∀ l, (loadModelsAux l fs).1.length + (loadModelsAux l fs).2.length = l.length := by
  intro l
  induction l with
  | nil => rfl
  | cons kv rest ih =>
      obtain ⟨k, p⟩ := kv
      simp only [loadModelsAux]
      cases hf : fs p with
      | some m => simp only [List.length_cons]; omega
      | none => simp only [List.length_cons]; omega

theorem lma_mem_loaded (fs : String → Option Model) :
    ∀ (l : List (String × String)) (k p : String) (m : Model),
      (k, p) ∈ l → fs p = some m → (k, m) ∈ (loadModelsAux l fs).1 := by
  intro l
  induction l with
  | nil => intro k p m h; simp at h
  | cons kv rest ih =>
      obtain ⟨k0, p0⟩ := kv
      intro k p m hmem hf
      simp only [loadModelsAux]
      rcases List.mem_cons.mp hmem with he | hm
      · simp only [Prod.mk.injEq] at he
        obtain ⟨h1, h2⟩ := he
        subst h1; subst h2
        rw [hf]
        exact List.mem_cons_self _ _
      · cases hf0 : fs p0 with
        | some m0 => exact List.mem_cons_of_mem _ (ih k p m hm hf)
        | none => exact ih k p m hm hf

theorem lma_not_mem_loaded (fs : String → Option Model) :
    ∀ (l : List (String × String)) (k : String),
      (∀ p, (k, p) ∈ l → fs p = none) →
      ∀ m, (k, m) ∉ (loadModelsAux l fs).1 := by
  intro l
  induction l with
  | nil => intro k _ m h; simp [loadModelsAux] at h
  | cons kv rest ih =>
      obtain ⟨k0, p0⟩ := kv
      intro k hall m hmem
      simp only [loadModelsAux] at hmem
      cases hf0 : fs p0 with
      | some m0 =>
          rw [hf0] at hmem
          rcases List.mem_cons.mp hmem with he | hm
          · simp only [Prod.mk.injEq] at he
            obtain ⟨h1, _⟩ := he
            subst h1
            have := hall p0 (List.mem_cons_self _ _)
            rw [this] at hf0
            cases hf0
          · exact ih k (fun p hp => hall p (List.mem_cons_of_mem _ hp)) m hm
      | none =>
          rw [hf0] at hmem
          exact ih k (fun p hp => hall p (List.mem_cons_of_mem _ hp)) m hmem

theorem lma_mem_failed (fs : String → Option Model) :
    ∀ (l : List (String × String)) (k p : String),
      (k, p) ∈ l → fs p = none → k ∈ (loadModelsAux l fs).2 := by
  intro l
  induction l with
  | nil => intro k p h; simp at h
  | cons kv rest ih =>
      obtain ⟨k0, p0⟩ := kv
      intro k p hmem hf
      simp only [loadModelsAux]
      rcases List.mem_cons.mp hmem with he | hm
      · simp only [Prod.mk.injEq] at he
        obtain ⟨h1, h2⟩ := he
        subst h1; subst h2
        rw [hf]
        exact List.mem_cons_self _ _
      · cases hf0 : fs p0 with
        | some m0 => exact ih k p hm hf
        | none => exact List.mem_cons_of_mem _ (ih k p hm hf)

theorem lma_failed_sub (fs : String → Option Model) :
    ∀ (l : List (String × String)) (k : String),
      k ∈ (loadModelsAux l fs).2 → k ∈ l.map Prod.fst := by
  intro l
  induction l with
  | nil => intro k h; simp [loadModelsAux] at h
  | cons kv rest ih =>
      obtain ⟨k0, p0⟩ := kv
      intro k hmem
      simp only [loadModelsAux] at hmem
      cases hf0 : fs p0 with
      | some m0 =>
          rw [hf0] at hmem
          exact List.mem_cons_of_mem _ (ih k hmem)
      | none =>
          rw [hf0] at hmem
          rcases List.mem_cons.mp hmem with rfl | hm
          · simp
          · exact List.mem_cons_of_mem _ (ih k hm)

theorem lma_not_mem_failed (fs : String → Option Model) :
    ∀ (l : List (String × String)) (k : String),
      (∀ p, (k, p) ∈ l → (fs p).isSome) → k ∉ (loadModelsAux l fs).2 := by
  intro l
  induction l with
  | nil => intro k _ h; simp [loadModelsAux] at h
  | cons kv rest ih =>
      obtain ⟨k0, p0⟩ := kv
      intro k hall hmem
      simp only [loadModelsAux] at hmem
      cases hf0 : fs p0 with
      | some m0 =>
          rw [hf0] at hmem
          exact ih k (fun p hp => hall p (List.mem_cons_of_mem _ hp)) hmem
      | none =>
          rw [hf0] at hmem
          rcases List.mem_cons.mp hmem with rfl | hm
          · have hc := hall p0 (List.mem_cons_self _ _)
            rw [hf0] at hc
            simp at hc
          · exact ih k (fun p hp => hall p (List.mem_cons_of_mem _ hp)) hm

theorem lma_count_failed (fs : String → Option Model) :
    ∀ (l : List (String × String)) (k p : String),
      (l.map Prod.fst).Nodup → (k, p) ∈ l → fs p = none →
      (loadModelsAux l fs).2.count k = 1 := by
  intro l
  induction l with
  | nil => intro k p _ h; simp at h
  | cons kv rest ih =>
      obtain ⟨k0, p0⟩ := kv
      intro k p hnd hmem hf
      have hk0 : k0 ∉ rest.map Prod.fst := (List.nodup_cons.mp (by simpa using hnd)).1
      have hnd' : (rest.map Prod.fst).Nodup := (List.nodup_cons.mp (by simpa using hnd)).2
      simp only [loadModelsAux]
      rcases List.mem_cons.mp hmem with he | hm
      · simp only [Prod.mk.injEq] at he
        obtain ⟨h1, h2⟩ := he
        subst h1; subst h2
        rw [hf]
        have hnot : k ∉ (loadModelsAux rest fs).2 :=
          fun hc => hk0 (lma_failed_sub fs rest k hc)
        simp [List.count_cons, List.count_eq_zero.mpr hnot]
      · have hkrest : k ∈ rest.map Prod.fst :=
          List.mem_map.mpr ⟨(k, p), hm, rfl⟩
        have hne : k ≠ k0 := fun hc => hk0 (hc ▸ hkrest)
        cases hf0 : fs p0 with
        | some m0 => exact ih k p hnd' hm hf
        | none =>
            rw [List.count_cons]
            rw [ih k p hnd' hm hf]
            simp [hne.symm]

theorem predictAction_preserves (s : AppState) :
    (predictAction s).raw = s.raw ∧ (predictAction s).scaler = s.scaler ∧
    (predictAction s).models = s.models ∧ (predictAction s).model_var = s.model_var := by
  unfold predictAction
  cases outcomeOf s <;> simp

theorem outcomeOf_congr (t u : AppState) (h1 : t.raw = u.raw) (h2 : t.scaler = u.scaler)
    (h3 : t.models = u.models) (h4 : t.model_var = u.model_var) :
    outcomeOf t = outcomeOf u := by
  unfold outcomeOf
  rw [h1, h2, h3, h4]

/-- C1 counterexample: with an empty registry and tag GA (unregistered),
the pipeline on an already-encoded vector does invoke the scaler
transform, contrary to the claim that neither the scaler nor any model
is invoked. -/
theorem unknown_tag_scaler_invoked_cex :
    lookupKey ([] : List (String × Model)) "GA" = none ∧
    CallEvent.scalerTransform ∈ (predictCore demoScaler [] "GA" [PyVal.fin 0]).2 := by
  constructor
  · rfl
  · show CallEvent.scalerTransform ∈ [CallEvent.scalerTransform]
    simp

/-- C1 (amended): with a model tag absent from the registry, predictCore
always fails — the KeyError from the registry lookup is caught by the
blanket handler, so the failure is the generic analysis failure rather
than a distinct UnknownModel error — and no model predict is ever
invoked; however the scaler transform is invoked, because normalization
runs before the registry lookup. -/
theorem predictCore_unknown_tag (scaler : Scaler) (models : List (String × Model))
    (tag : String) (data : List PyVal) (h : lookupKey models tag = none) :
    (∃ d, (predictCore scaler models tag data).1 = PredictOutcome.analysisFailed d) ∧
    (∀ t, CallEvent.modelPredict t ∉ (predictCore scaler models tag data).2) ∧
    CallEvent.scalerTransform ∈ (predictCore scaler models tag data).2 := by
  unfold predictCore
  cases ht : scaler.transform data with
  | error d => exact ⟨⟨d, rfl⟩, by intro t; simp, by simp⟩
  | ok xnew =>
      rw [h]
      exact ⟨⟨"'" ++ tag ++ "'", rfl⟩, by intro t; simp, by simp⟩

/-- C1 witness: the amended theorem instantiated at the empty registry. -/
theorem predictCore_unknown_tag_witness :
    (∃ d, (predictCore demoScaler [] "GA" [PyVal.fin 0]).1 = PredictOutcome.analysisFailed d) ∧
    (∀ t, CallEvent.modelPredict t ∉ (predictCore demoScaler [] "GA" [PyVal.fin 0]).2) ∧
    CallEvent.scalerTransform ∈ (predictCore demoScaler [] "GA" [PyVal.fin 0]).2 :=
  predictCore_unknown_tag demoScaler [] "GA" [PyVal.fin 0] rfl

/-- C2 counterexample: a registered model returning 2 — a value outside
the label set — produces the low-risk label, not an ArtifactFailure
error. -/
theorem out_of_range_label_cex :
    demoModel2.predict [PyVal.fin 0] = Except.ok (PyVal.fin 2) ∧
    (PyVal.fin 2 ≠ PyVal.fin 0 ∧ PyVal.fin 2 ≠ PyVal.fin 1) ∧
    (predictCore demoScaler [("GA", demoModel2)] "GA" [PyVal.fin 0]).1
      = PredictOutcome.lowRisk := by
  refine ⟨rfl, ⟨by decide, by decide⟩, rfl⟩

/-- C2 (amended): for a registered model, a runtime failure inside the
scaler or model call is wrapped as the generic analysis failure; but a
value returned by the model predict call is never range-checked:
exactly 1 yields the high-risk label, and any other returned value —
including values outside the label set — yields the low-risk label
instead of an error. -/
theorem predictCore_registered_tag (scaler : Scaler) (models : List (String × Model))
    (tag : String) (m : Model) (data : List PyVal)
    (h : lookupKey models tag = some m) :
    (∀ d, scaler.transform data = Except.error d →
        (predictCore scaler models tag data).1 = PredictOutcome.analysisFailed d) ∧
    (∀ x d, scaler.transform data = Except.ok x → m.predict x = Except.error d →
        (predictCore scaler models tag data).1 = PredictOutcome.analysisFailed d) ∧
    (∀ x p, scaler.transform data = Except.ok x → m.predict x = Except.ok p →
        (predictCore scaler models tag data).1 =
          (if p = PyVal.fin 1 then PredictOutcome.highRisk
           else PredictOutcome.lowRisk)) := by
  refine ⟨?_, ?_, ?_⟩
  · intro d hd
    unfold predictCore
    rw [hd]
  · intro x d hx hd
    unfold predictCore
    simp [hx, h, hd]
  · intro x p hx hp
    unfold predictCore
    simp [hx, h, hp]

/-- C2 witness: the amended theorem instantiated at the identity scaler
and a model that always returns 0. -/
theorem predictCore_registered_tag_witness :
    (predictCore demoScaler [("GA", demoModel0)] "GA" [PyVal.fin 3]).1
      = (if PyVal.fin 0 = PyVal.fin 1 then PredictOutcome.highRisk
         else PredictOutcome.lowRisk) :=
  (predictCore_registered_tag demoScaler [("GA", demoModel0)] "GA" demoModel0
    [PyVal.fin 3] rfl).2.2 [PyVal.fin 3] (PyVal.fin 0) rfl rfl

end HeartGUI

namespace HeartGUI

/-- C3: for a Numeric field whose raw string is empty or not parseable
as a float, validation of the whole form fails; the validation step for
that field reports reason empty (for an empty-after-strip string) or
not numeric, and when that field is the first invalid one in schema
order the whole-form error identifies exactly that field; conversely
any float-parseable string — no range constraint — passes that field's
validation. -/
theorem numeric_field_validation (fd : FieldDescriptor)
    (hmem : fd ∈ field_definitions) (hnum : fd.kind = FieldKind.numeric)
    (raw : String → String) :
    (pyFloat (raw fd.key) = none →
        (∃ e, validate_inputs raw = some e) ∧
        validateField fd (raw fd.key) =
          some (if pyStrip (raw fd.key) = "" then VReason.empty else VReason.notNumeric) ∧
        (∀ pre post, field_definitions = pre ++ fd :: post →
            (∀ g ∈ pre, validateField g (raw g.key) = none) →
            validate_inputs raw =
              some ⟨fd.key,
                if pyStrip (raw fd.key) = "" then VReason.empty else VReason.notNumeric⟩)) ∧
    (∀ q, pyFloat (raw fd.key) = some q → validateField fd (raw fd.key) = none) := by
  constructor
  · intro hnone
    have hvf : validateField fd (raw fd.key) =
        some (if pyStrip (raw fd.key) = "" then VReason.empty else VReason.notNumeric) := by
      rw [validateField_numeric_eq fd hnum]
      by_cases h1 : pyStrip (raw fd.key) = ""
      · simp [h1]
      · simp [h1, hnone]
    refine ⟨?_, hvf, ?_⟩
    · exact validate_inputs_fails raw fd hmem (by rw [hvf]; exact Option.some_ne_none _)
    · intro pre post hsplit hpre
      unfold validate_inputs
      rw [hsplit, vfa_append raw pre _ hpre]
      simp only [validateFieldsAux, hvf]
  · intro q hq
    rw [validateField_numeric_eq fd hnum]
    have hne : ¬ pyStrip (raw fd.key) = "" := by
      intro h1
      have h2 : pyFloat (pyStrip (raw fd.key)) = pyFloat (raw fd.key) :=
        pyFloat_pyStrip (raw fd.key)
      rw [h1, pyFloat_empty, hq] at h2
      cases h2
    simp [hne, hq]

/-- C3 witness: the age field with a non-numeric string makes the form
fail with the age field and reason not numeric, and a negative age
string parses and passes the field check (no range constraint). -/
theorem numeric_field_validation_witness :
    (pyFloat "abc" = none ∧
      validate_inputs (fun _ => "abc") =
        some ⟨"age", if pyStrip "abc" = "" then VReason.empty else VReason.notNumeric⟩) ∧
    (pyFloat "-5" = some (PyVal.fin (-5)) ∧
      validateField ⟨"Age (years)", "age", FieldKind.numeric⟩ "-5" = none) := by
  refine ⟨⟨by decide, ?_⟩, ⟨by decide, ?_⟩⟩
  · exact ((numeric_field_validation ⟨"Age (years)", "age", FieldKind.numeric⟩
      (by decide) rfl (fun _ => "abc")).1 (by decide)).2.2
      [] (field_definitions.tail) (by decide) (by decide)
  · exact (numeric_field_validation ⟨"Age (years)", "age", FieldKind.numeric⟩
      (by decide) rfl (fun _ => "-5")).2 (PyVal.fin (-5)) (by decide)

/-- C4: for a Categorical field, every key of its mapping passes that
field's validation and encodes to exactly the mapped integer; a raw
value that is not a key fails that field's validation with reason
invalid selection, and when that field is the first invalid one in
schema order the whole-form error identifies exactly that field. -/
theorem categorical_field_validation (fd : FieldDescriptor) (opts : List (String × Int))
    (hmem : fd ∈ field_definitions) (hcat : fd.kind = FieldKind.categorical opts) :
    (∀ k v, lookupKey opts k = some v →
        validateField fd k = none ∧ encodeField fd k = some (PyVal.fin (v : ℚ))) ∧
    (∀ s, lookupKey opts s = none → validateField fd s = some VReason.invalidSelection) ∧
    (∀ (raw : String → String) pre post,
        field_definitions = pre ++ fd :: post →
        (∀ g ∈ pre, validateField g (raw g.key) = none) →
        lookupKey opts (raw fd.key) = none →
        validate_inputs raw = some ⟨fd.key, VReason.invalidSelection⟩) := by
  refine ⟨?_, ?_, ?_⟩
  · intro k v hk
    constructor
    · rw [validateField_categorical_eq fd opts hcat]
      simp [hk]
    · unfold encodeField
      rw [hcat]
      simp [hk]
  · intro s hs
    rw [validateField_categorical_eq fd opts hcat]
    simp [hs]
  · intro raw pre post hsplit hpre hbad
    have hvf : validateField fd (raw fd.key) = some VReason.invalidSelection := by
      rw [validateField_categorical_eq fd opts hcat]
      simp [hbad]
    unfold validate_inputs
    rw [hsplit, vfa_append raw pre _ hpre]
    simp only [validateFieldsAux, hvf]

/-- C4 witness: the sex field maps Male to 1 and rejects a value outside
its mapping, which aborts the form with the sex field when all earlier
fields are valid. -/
theorem categorical_field_validation_witness :
    (validateField ⟨"Sex", "sex", FieldKind.categorical [("Male", 1), ("Female", 0)]⟩
        "Male" = none ∧
      encodeField ⟨"Sex", "sex", FieldKind.categorical [("Male", 1), ("Female", 0)]⟩
        "Male" = some (PyVal.fin 1)) ∧
    validate_inputs (fun k => if k = "sex" then "Dog" else demoRaw k) =
      some ⟨"sex", VReason.invalidSelection⟩ := by
  constructor
  · exact (categorical_field_validation
      ⟨"Sex", "sex", FieldKind.categorical [("Male", 1), ("Female", 0)]⟩
      [("Male", 1), ("Female", 0)] (by decide) rfl).1 "Male" 1 (by decide)
  · exact (categorical_field_validation
      ⟨"Sex", "sex", FieldKind.categorical [("Male", 1), ("Female", 0)]⟩
      [("Male", 1), ("Female", 0)] (by decide) rfl).2.2
      (fun k => if k = "sex" then "Dog" else demoRaw k)
      [⟨"Age (years)", "age", FieldKind.numeric⟩] (field_definitions.drop 2)
      (by decide) (by decide) (by decide)

end HeartGUI

namespace HeartGUI

/-- C5: on the end-to-end scenario input, validation passes and the
gathering loop produces exactly the vector
50, 1, 1, 120, 200, 0, 0, 150, 0, 1, 1 in schema order, of length 11 =
schema length. -/
theorem end_to_end_encode :
    validate_inputs demoRaw = none ∧
    (gatherData demoRaw).2 = some
      [PyVal.fin 50, PyVal.fin 1, PyVal.fin 1, PyVal.fin 120, PyVal.fin 200,
       PyVal.fin 0, PyVal.fin 0, PyVal.fin 150, PyVal.fin 0, PyVal.fin 1,
       PyVal.fin 1] ∧
    field_definitions.length = 11 := by
  refine ⟨by decide, by decide, by decide⟩

/-- C6: a raw input with at least one invalid field makes validation
fail with exactly the error of the first invalid field in schema order
(earlier fields all valid), and predict stops there: the outcome is
that single validation failure and the trace is empty, so no field is
encoded and no artifact is invoked. -/
theorem first_invalid_field_aborts (raw : String → String)
    (h : ∃ f ∈ field_definitions, validateField f (raw f.key) ≠ none) :
    ∃ pre fd post r,
      field_definitions = pre ++ fd :: post ∧
      (∀ g ∈ pre, validateField g (raw g.key) = none) ∧
      validateField fd (raw fd.key) = some r ∧
      validate_inputs raw = some ⟨fd.key, r⟩ ∧
      ∀ scaler models tag,
        predict raw scaler models tag =
          (PredictOutcome.validationFailed ⟨fd.key, r⟩, []) := by
  obtain ⟨f, hf, hbad⟩ := h
  obtain ⟨e, he⟩ := validate_inputs_fails raw f hf hbad
  obtain ⟨pre, fd, post, hsplit, hpre, hfd, hkey⟩ :=
    vfa_first raw field_definitions e he
  refine ⟨pre, fd, post, e.reason, hsplit, hpre, hfd, ?_, ?_⟩
  · rw [he]
    cases e
    cases hkey
    rfl
  · intro scaler models tag
    have he2 : validate_inputs raw = some ⟨fd.key, e.reason⟩ := by
      rw [he]
      cases e
      cases hkey
      rfl
    unfold predict
    rw [he2]

/-- C6 witness: with an empty age and a non-numeric cholesterol at the
same time, the age field — first in schema order — is the one reported. -/
theorem first_invalid_field_aborts_witness :
    (∃ f ∈ field_definitions,
        validateField f
          ((fun k => if k = "age" then "" else if k = "cholesterol" then "x" else demoRaw k)
            f.key) ≠ none) ∧
    ∃ pre fd post r,
      field_definitions = pre ++ fd :: post ∧
      (∀ g ∈ pre,
          validateField g
            ((fun k => if k = "age" then "" else if k = "cholesterol" then "x" else demoRaw k)
              g.key) = none) ∧
      validateField fd
        ((fun k => if k = "age" then "" else if k = "cholesterol" then "x" else demoRaw k)
          fd.key) = some r ∧
      validate_inputs
        (fun k => if k = "age" then "" else if k = "cholesterol" then "x" else demoRaw k) =
        some ⟨fd.key, r⟩ ∧
      ∀ scaler models tag,
        predict
          (fun k => if k = "age" then "" else if k = "cholesterol" then "x" else demoRaw k)
          scaler models tag =
          (PredictOutcome.validationFailed ⟨fd.key, r⟩, []) :=
  ⟨⟨⟨"Age (years)", "age", FieldKind.numeric⟩, by decide, by decide⟩,
   first_invalid_field_aborts
     (fun k => if k = "age" then "" else if k = "cholesterol" then "x" else demoRaw k)
     ⟨⟨"Age (years)", "age", FieldKind.numeric⟩, by decide, by decide⟩⟩

/-- A filesystem for the two-of-five scenario: the BFO and ACO artifacts
fail to load, the other three load. -/
def demoFS25 : String → Option Model := fun p =>
  if p = "Models/bfo_optimize_svm_model.pkl" || p = "Models/aco_optimize_svm_model.pkl"
  then none else some demoModel0

/-- C7: load_models attempts every tag independently: a tag whose
artifact fails to load is absent from the mapping and appears exactly
once in the warning list, a tag whose artifact loads is present and not
warned about, loaded plus failed always cover the five tags, and the
fatal branch is taken exactly when the mapping is empty; in the
two-of-five scenario the three other models load with two warnings, and
with all five corrupt the fatal branch is taken. -/
theorem load_models_spec :
    (∀ fs : String → Option Model,
      ((load_models fs).fatalExit = true ↔ (load_models fs).models = []) ∧
      (load_models fs).models.length + (load_models fs).failed.length
        = model_paths.length ∧
      (∀ k p, (k, p) ∈ model_paths →
        (fs p = none →
            lookupKey (load_models fs).models k = none ∧
            (load_models fs).failed.count k = 1) ∧
        (∀ m, fs p = some m →
            (k, m) ∈ (load_models fs).models ∧ k ∉ (load_models fs).failed))) ∧
    (load_models demoFS25).models.map Prod.fst = ["DE", "GA", "ABC"] ∧
    (load_models demoFS25).failed = ["BFO", "ACO"] ∧
    (load_models demoFS25).fatalExit = false ∧
    (load_models (fun _ => none)).models = [] ∧
    (load_models (fun _ => none)).failed = ["BFO", "ACO", "DE", "GA", "ABC"] ∧
    (load_models (fun _ => none)).fatalExit = true := by
  have hnd : (model_paths.map Prod.fst).Nodup := by decide
  refine ⟨?_, rfl, rfl, rfl, rfl, rfl, rfl⟩
  intro fs
  refine ⟨?_, lma_length fs model_paths, ?_⟩
  · show (loadModelsAux model_paths fs).1.isEmpty = true ↔ _
    rw [List.isEmpty_iff]
    exact Iff.rfl
  · intro k p hkp
    constructor
    · intro hnone
      have hall : ∀ p', (k, p') ∈ model_paths → fs p' = none := by
        intro p' hp'
        have : p' = p := keys_nodup_functional model_paths hnd k p' p hp' hkp
        rw [this, hnone]
      refine ⟨lookupKey_eq_none _ k (lma_not_mem_loaded fs model_paths k hall), ?_⟩
      exact lma_count_failed fs model_paths k p hnd hkp hnone
    · intro m hm
      refine ⟨lma_mem_loaded fs model_paths k p m hkp hm, ?_⟩
      apply lma_not_mem_failed fs model_paths k
      intro p' hp'
      have hpp : p' = p := keys_nodup_functional model_paths hnd k p' p hp' hkp
      rw [hpp, hm]
      rfl

/-- C7 witness: the general part of the theorem instantiated at the
two-of-five filesystem for a failing tag (BFO) and a loading tag (GA). -/
theorem load_models_spec_witness :
    (lookupKey (load_models demoFS25).models "BFO" = none ∧
      (load_models demoFS25).failed.count "BFO" = 1) ∧
    (("GA", demoModel0) ∈ (load_models demoFS25).models ∧
      "GA" ∉ (load_models demoFS25).failed) :=
  ⟨(load_models_spec.1 demoFS25).2.2 "BFO" "Models/bfo_optimize_svm_model.pkl"
      (by decide) |>.1 rfl,
   (load_models_spec.1 demoFS25).2.2 "GA" "Models/ga_optimize_svm_model.pkl"
      (by decide) |>.2 demoModel0 rfl⟩

end HeartGUI

namespace HeartGUI

/-- C8: the label outcome of predict depends only on the raw inputs,
the loaded artifacts and the selected tag — not on the mutable display
state — and pressing Analyze Risk leaves those four inputs unchanged,
so a repeated call on the updated state returns the same outcome:
the pipeline is deterministic and repeated calls are idempotent. -/
theorem pipeline_deterministic (s1 s2 : AppState)
    (h1 : s1.raw = s2.raw) (h2 : s1.scaler = s2.scaler)
    (h3 : s1.models = s2.models) (h4 : s1.model_var = s2.model_var) :
    outcomeOf s1 = outcomeOf s2 ∧
    outcomeOf (predictAction s1) = outcomeOf s1 := by
  have hp := predictAction_preserves s1
  constructor
  · exact outcomeOf_congr s1 s2 h1 h2 h3 h4
  · exact outcomeOf_congr (predictAction s1) s1 hp.1 hp.2.1 hp.2.2.1 hp.2.2.2

/-- C8 witness: the theorem instantiated at two states that share the
form contents, artifacts and tag but differ in display fields. -/
theorem pipeline_deterministic_witness :
    outcomeOf ⟨demoRaw, demoScaler, [("GA", demoModel0)], "GA", "", "black", "Ready"⟩
      = outcomeOf ⟨demoRaw, demoScaler, [("GA", demoModel0)], "GA", "old text",
          "darkred", "busy"⟩ ∧
    outcomeOf (predictAction
        ⟨demoRaw, demoScaler, [("GA", demoModel0)], "GA", "", "black", "Ready"⟩)
      = outcomeOf ⟨demoRaw, demoScaler, [("GA", demoModel0)], "GA", "", "black", "Ready"⟩ :=
  pipeline_deterministic
    ⟨demoRaw, demoScaler, [("GA", demoModel0)], "GA", "", "black", "Ready"⟩
    ⟨demoRaw, demoScaler, [("GA", demoModel0)], "GA", "old text", "darkred", "busy"⟩
    rfl rfl rfl rfl

/-- C9: load_scaler returns the scaler exactly when the artifact loads;
a missing or malformed artifact leads to the fatal error box and
process exit, and no scaler is ever returned in that case. -/
theorem load_scaler_spec (artifact : Option Scaler) :
    (artifact = none →
        load_scaler artifact =
          ScalerLoadResult.fatalExit "Critical Error" "Failed to load feature scaler") ∧
    (∀ s, artifact = some s → load_scaler artifact = ScalerLoadResult.ok s) ∧
    (∀ s, load_scaler artifact = ScalerLoadResult.ok s → artifact = some s) := by
  refine ⟨?_, ?_, ?_⟩
  · intro h
    rw [h]
    rfl
  · intro s h
    rw [h]
    rfl
  · intro s h
    cases artifact with
    | none => cases h
    | some s' =>
        cases h
        rfl

/-- C9 witness: the theorem instantiated at a missing artifact and at a
present one. -/
theorem load_scaler_spec_witness :
    load_scaler none =
      ScalerLoadResult.fatalExit "Critical Error" "Failed to load feature scaler" ∧
    load_scaler (some demoScaler) = ScalerLoadResult.ok demoScaler :=
  ⟨(load_scaler_spec none).1 rfl,
   (load_scaler_spec (some demoScaler)).2.1 demoScaler rfl⟩

/-- C10: whenever validate_inputs succeeds, every field of the schema
encodes — float conversion succeeds on every numeric field and every
categorical selection is a key of its mapping — so the gathering loop
in predict is total and yields a vector of schema length. -/
theorem validated_encoding_total (raw : String → String)
    (h : validate_inputs raw = none) :
    (∀ f ∈ field_definitions, (encodeField f (raw f.key)).isSome) ∧
    ∃ data, (gatherData raw).2 = some data ∧
      data.length = field_definitions.length := by
  have hall : ∀ f ∈ field_definitions, validateField f (raw f.key) = none :=
    (vfa_none_iff raw field_definitions).mp h
  have henc : ∀ f ∈ field_definitions, (encodeField f (raw f.key)).isSome :=
    fun f hf => encodeField_isSome_of_valid f (raw f.key) (hall f hf)
  exact ⟨henc, gatherAux_total raw field_definitions henc⟩

/-- C10 witness: the theorem instantiated at the end-to-end scenario
input. -/
theorem validated_encoding_total_witness :
    (∀ f ∈ field_definitions, (encodeField f (demoRaw f.key)).isSome) ∧
    ∃ data, (gatherData demoRaw).2 = some data ∧
      data.length = field_definitions.length :=
  validated_encoding_total demoRaw (by decide)

end HeartGUI
